import Mathlib

/-!
Shallow embedding of the SubQG simulation core (TypeScript) in Lean 4:
the seeded linear-congruential PRNG (src/utils/seeded_rng.ts), the
waveform synthesis and node detection (src/utils/simulation_utils.ts),
the parameter search loop (src/App.tsx), the batch histogram
(src/components/StatisticalAnalysis.tsx) and the Riemann-analogous
scalar and descriptive statistics (the statistical-analysis variant).

JavaScript numbers are modelled as rationals; the transcendental
functions of the Math object are abstracted into a record of rational
functions, so every theorem holds for an arbitrary interpretation of
sin, cos, sqrt and log.
-/

namespace SubQG

/-- Abstraction of the transcendental part of JavaScript's Math object
(Math.sin, Math.cos, Math.sqrt, Math.log and the constant Math.PI) as
rational functions.  The simulation is parametrised over this record:
no property of the wave shapes is assumed anywhere. -/
structure MathOps where
  sin : ℚ → ℚ
  cos : ℚ → ℚ
  sqrt : ℚ → ℚ
  log : ℚ → ℚ
  pi : ℚ

/-- Trivial interpretation of the Math object (every function constantly
zero), used to instantiate universally quantified theorems at concrete
inputs. -/
def zeroOps : MathOps :=
  { sin := fun _ => 0, cos := fun _ => 0, sqrt := fun _ => 0
    log := fun _ => 0, pi := 0 }

/-- Model of parseFloat(x.toFixed(k)): round to k decimal places.  On a
tie JavaScript's toFixed picks the larger candidate integer, i.e. rounds
towards plus infinity, which is Mathlib's round. -/
def roundTo (k : ℕ) (x : ℚ) : ℚ := (round (x * 10 ^ k) : ℚ) / 10 ^ k

/-!### src/utils/seeded_rng.ts -/

/-- LCG modulus m = 0x80000000 = 2^31 (field m of SeededRandom). -/
def LCG_M : ℕ := 2 ^ 31

/-- LCG multiplier a = 1103515245 (field a of SeededRandom). -/
def LCG_A : ℕ := 1103515245

/-- LCG increment c = 12345 (field c of SeededRandom). -/
def LCG_C : ℕ := 12345

/-- SeededRandom constructor: the register is Math.floor(Math.abs(seed)) % m,
bumped to 1 when that is 0. -/
def mkSeed (seed : ℚ) : ℕ :=
  let s := (⌊|seed|⌋ % (LCG_M : ℤ)).toNat
  if s = 0 then 1 else s

/-- One register update of nextInt(): seed = (a * seed + c) % m; the
updated register is also the returned integer. -/
def lcgNext (s : ℕ) : ℕ := (LCG_A * s + LCG_C) % LCG_M

/-- Re-draw loop of randn() (while (u === 0) u = this.nextFloat()), run
with explicit fuel.  nextFloat() returns nextInt()/m, which is zero
exactly when the register becomes zero, so the loop is modelled on the
raw register value.  Returns the drawn register value, the state after
the loop, and the number of register advances; none when the fuel runs
out before a nonzero value appears. -/
def drawNonzeroFuel : ℕ → ℕ → Option (ℕ × ℕ × ℕ)
  | 0, _ => none
  | fuel + 1, s =>
    let s1 := lcgNext s
    if s1 = 0 then
      match drawNonzeroFuel fuel s1 with
      | none => none
      | some (v, s2, k) => some (v, s2, k + 1)
    else some (s1, s1, 1)

/-- Re-draw loop of randn() as a total function: one draw, and one
re-draw when the first lands on 0.  A single re-draw suffices because
lcgNext 0 = 12345 is nonzero; the agreement with the fuelled loop is
proved below (claim C10). -/
def drawNonzero (s : ℕ) : ℕ × ℕ × ℕ :=
  let s1 := lcgNext s
  if s1 = 0 then (lcgNext s1, lcgNext s1, 2) else (s1, s1, 1)

/-- randn(): Box-Muller transform over the seeded PRNG.  Draws u and v
through the two re-draw loops and returns
sqrt(-2 * log u) * cos(2 * pi * v) together with the final register
state (u and v are the raw register values divided by m, as in
nextFloat()). -/
def randn (ops : MathOps) (s : ℕ) : ℚ × ℕ :=
  let u := drawNonzero s
  let v := drawNonzero u.2.1
  (ops.sqrt (-2 * ops.log ((u.1 : ℚ) / (LCG_M : ℚ))) *
     ops.cos (2 * ops.pi * ((v.1 : ℚ) / (LCG_M : ℚ))), v.2.1)

/-- Number of register advances that one randn() call performs from
state s: the advances of the u loop plus those of the v loop. -/
def randnAdvances (s : ℕ) : ℕ :=
  let u := drawNonzero s
  let v := drawNonzero u.2.1
  u.2.2 + v.2.2

/-- randn() with the fuelled loops: some value when both loops finish
within the fuel, none otherwise. -/
def randnFuel (ops : MathOps) (fuel : ℕ) (s : ℕ) : Option (ℚ × ℕ) :=
  match drawNonzeroFuel fuel s with
  | none => none
  | some (u, s1, _) =>
    match drawNonzeroFuel fuel s1 with
    | none => none
    | some (v, s2, _) =>
      some (ops.sqrt (-2 * ops.log ((u : ℚ) / (LCG_M : ℚ))) *
        ops.cos (2 * ops.pi * ((v : ℚ) / (LCG_M : ℚ))), s2)

/-! ### src/utils/simulation_utils.ts -/

/-- linspace(start, stop, num): num evenly spaced values from start to
stop inclusive.  The source returns [] for num <= 0 and [start] for
num === 1; with a natural-number count these are the 0 and 1 cases. -/
def linspace (start stop : ℚ) (num : ℕ) : List ℚ :=
  if num = 0 then []
  else if num = 1 then [start]
  else (List.range num).map fun i : ℕ => start + ((stop - start) / ((num : ℚ) - 1)) * (i : ℚ)

/-- Constant F_ENERGY = 0.2. -/
def F_ENERGY : ℚ := 2 / 10

/-- Constant F_PHASE = 0.203. -/
def F_PHASE : ℚ := 203 / 1000

/-- Constant STEPS_PER_UNIT_DURATION = 100. -/
def STEPS_PER_UNIT_DURATION : ℚ := 100

/-- Local steps of calculateSimulationData:
Math.max(10, Math.floor(currentDuration * STEPS_PER_UNIT_DURATION)).
Always at least 10, so the toNat cast is exact. -/
def simSteps (currentDuration : ℚ) : ℕ :=
  (max 10 ⌊currentDuration * STEPS_PER_UNIT_DURATION⌋).toNat

/-- One sample point.  In the source interface energie and phase are
optional fields, but calculateSimulationData always sets them, so they
are plain rationals here; knoten and characteristic are genuinely
conditional. -/
structure SimulationDataPoint where
  time : ℚ
  energie : ℚ
  phase : ℚ
  knoten : Option ℚ
  characteristic : Option String
deriving DecidableEq, Repr

/-- Semantic characteristic of a node (lines 67-76 of
simulation_utils.ts), chosen from the display energy and the current
noise. -/
def characteristicFor (currentNoise currentThreshold displayEnergie : ℚ) : String :=
  if displayEnergie > currentThreshold * (18 / 10) ∧ currentNoise < 25 / 100 then
    "Starker Hochenergie-Knoten (Niedrigrauschen)"
  else if displayEnergie > currentThreshold * (15 / 10) then
    "Hochenergie-Knoten"
  else if currentNoise < 2 / 10 then
    "Niedrigrauschen-Knoten"
  else
    "Standard-Resonanzknoten"

/-- Construction of one sample (lines 48-78 of simulation_utils.ts):
time rounded to 2 decimals, display values rounded to 3 decimals, and
knoten plus characteristic added exactly when both raw values strictly
exceed the threshold and the display values coincide. -/
def mkPoint (currentNoise currentThreshold t rawEnergie rawPhase : ℚ) : SimulationDataPoint :=
  let displayEnergie := roundTo 3 rawEnergie
  let displayPhase := roundTo 3 rawPhase
  { time := roundTo 2 t
    energie := displayEnergie
    phase := displayPhase
    knoten :=
      if rawEnergie > currentThreshold ∧ rawPhase > currentThreshold ∧
          displayEnergie = displayPhase then
        some displayEnergie
      else none
    characteristic :=
      if rawEnergie > currentThreshold ∧ rawPhase > currentThreshold ∧
          displayEnergie = displayPhase then
        some (characteristicFor currentNoise currentThreshold displayEnergie)
      else none }

/-- timeArray.map(t => Math.sin(2 * Math.PI * F_ENERGY * t) + noise * rng.randn()),
threading the PRNG register left to right; returns the list and the
final register state. -/
def energieArray (ops : MathOps) (currentNoise : ℚ) : List ℚ → ℕ → List ℚ × ℕ
  | [], s => ([], s)
  | t :: ts, s =>
    let r := randn ops s
    let rest := energieArray ops currentNoise ts r.2
    ((ops.sin (2 * ops.pi * F_ENERGY * t) + currentNoise * r.1) :: rest.1, rest.2)

/-- timeArray.map(t => Math.sin(2 * Math.PI * F_PHASE * t + Math.PI / 4) + noise * rng.randn()),
threading the PRNG register left to right. -/
def phaseArray (ops : MathOps) (currentNoise : ℚ) : List ℚ → ℕ → List ℚ × ℕ
  | [], s => ([], s)
  | t :: ts, s =>
    let r := randn ops s
    let rest := phaseArray ops currentNoise ts r.2
    ((ops.sin (2 * ops.pi * F_PHASE * t + ops.pi / 4) + currentNoise * r.1) :: rest.1, rest.2)

/-- calculateSimulationData (lines 28-80 of simulation_utils.ts).  The
caller-owned SeededRandom instance is its register state; the energy
wave consumes its randn() draws first, then the phase wave continues
from the resulting state.  The final map over timeArray with index i is
written as a map over List.range. -/
def calculateSimulationData (ops : MathOps)
    (currentDuration currentNoise currentThreshold : ℚ) (rng : ℕ) :
    List SimulationDataPoint :=
  let steps := simSteps currentDuration
  let timeArray := linspace 0 currentDuration steps
  if timeArray.length = 0 then []
  else
    let eResult := energieArray ops currentNoise timeArray rng
    let pResult := phaseArray ops currentNoise timeArray eResult.2
    (List.range timeArray.length).map fun i =>
      mkPoint currentNoise currentThreshold (timeArray.getD i 0)
        (eResult.1.getD i 0) (pResult.1.getD i 0)

/-- Node count of one run, as SubQGInteractive reports it to the search
loop: the number of samples whose knoten field is set (the source also
filters on energie and phase being defined, which calculateSimulationData
always guarantees). -/
def knotenCount (pts : List SimulationDataPoint) : ℕ :=
  (pts.filter fun p => p.knoten.isSome).length

/-! ### src/App.tsx - the automatic parameter search -/

/-- Constant MAX_SEARCH_ATTEMPTS = 50. -/
def MAX_SEARCH_ATTEMPTS : ℕ := 50

/-- Noise drawn for one attempt from a uniform sample r of Math.random():
parseFloat((r * (0.75 - 0.05) + 0.05).toFixed(2)). -/
def attemptNoise (r : ℚ) : ℚ := roundTo 2 (r * (75 / 100 - 5 / 100) + 5 / 100)

/-- Threshold drawn for one attempt from a uniform sample r:
parseFloat((r * (1.8 - 0.7) + 0.7).toFixed(1)). -/
def attemptThreshold (r : ℚ) : ℚ := roundTo 1 (r * (18 / 10 - 7 / 10) + 7 / 10)

/-- Seed drawn for one attempt from a uniform sample r:
Math.floor(r * 1000000). -/
def attemptSeed (r : ℚ) : ℚ := (⌊r * 1000000⌋ : ℚ)

/-- Outcome of the automatic parameter search: Success carries the noise,
threshold and seed of the successful attempt together with the 1-based
attempt number (the Knoten gefunden message); Exhausted is the Kein
Knoten nach N Versuchen outcome. -/
inductive SearchOutcome where
  | success (noise threshold seed : ℚ) (attempt : ℕ)
  | exhausted
deriving DecidableEq, Repr

/-- Whether attempt k of the search finds at least one node: draws k
supplies the three Math.random() samples of that attempt, and the run
uses the fixed duration with a fresh SeededRandom of the drawn seed. -/
def attemptSuccessful (ops : MathOps) (duration : ℚ) (draws : ℕ → ℚ × ℚ × ℚ)
    (k : ℕ) : Prop :=
  0 < knotenCount (calculateSimulationData ops duration
    (attemptNoise (draws k).1) (attemptThreshold (draws k).2.1)
    (mkSeed (attemptSeed (draws k).2.2)))

instance (ops : MathOps) (duration : ℚ) (draws : ℕ → ℚ × ℚ × ℚ) (k : ℕ) :
    Decidable (attemptSuccessful ops duration draws k) := by
  unfold attemptSuccessful; infer_instance

/-- Search loop of App.tsx (handleStartSearch and the effect on
knotenCountFromSim), modelled as a recursion over the remaining attempt
budget: attempt k draws fresh noise, threshold and seed, runs the
simulation at the unchanged duration, stops with Success on the first
attempt with at least one node, and with Exhausted when the budget is
spent. -/
def searchRun (ops : MathOps) (duration : ℚ) (draws : ℕ → ℚ × ℚ × ℚ) :
    ℕ → ℕ → SearchOutcome
  | _, 0 => .exhausted
  | k, budget + 1 =>
    if attemptSuccessful ops duration draws k then
      .success (attemptNoise (draws k).1) (attemptThreshold (draws k).2.1)
        (attemptSeed (draws k).2.2) (k + 1)
    else searchRun ops duration draws (k + 1) budget

/-- handleStartSearch: the whole search from attempt 1 with the full
budget of maxAttempts attempts. -/
def handleStartSearch (ops : MathOps) (duration : ℚ) (draws : ℕ → ℚ × ℚ × ℚ)
    (maxAttempts : ℕ) : SearchOutcome :=
  searchRun ops duration draws 0 maxAttempts

/-! ### src/components/StatisticalAnalysis.tsx - histogram -/

/-- Constant timeSegments = 10 of handleRunAnalysis. -/
def TIME_SEGMENTS : ℕ := 10

/-- Bucket index of one node in the time histogram:
Math.min(Math.floor(knoten.time / segmentDuration), timeSegments - 1)
with segmentDuration = currentDuration / timeSegments. -/
def segmentIndex (currentDuration : ℚ) (time : ℚ) : ℤ :=
  min ⌊time / (currentDuration / (TIME_SEGMENTS : ℚ))⌋ ((TIME_SEGMENTS : ℤ) - 1)

/-- One node's contribution to the histogram: increment the bucket at
its segmentIndex; the source guards the increment with
if (distribution[segmentIndex]), which skips indices outside 0..9. -/
def distributionStep (currentDuration : ℚ) (dist : List ℕ) (timeVal : ℚ) : List ℕ :=
  if 0 ≤ segmentIndex currentDuration timeVal ∧
      (segmentIndex currentDuration timeVal).toNat < dist.length then
    dist.set (segmentIndex currentDuration timeVal).toNat
      (dist.getD (segmentIndex currentDuration timeVal).toNat 0 + 1)
  else dist

/-- Time histogram of handleRunAnalysis: ten buckets starting at count
0, each collected node incrementing the bucket of its time. -/
def knotenDistribution (currentDuration : ℚ) (knotenTimes : List ℚ) : List ℕ :=
  knotenTimes.foldl (distributionStep currentDuration) (List.replicate TIME_SEGMENTS 0)

/-! ### Riemann-analogous analysis and descriptive statistics
(statistical-analysis variant, src/unnamed/part_001) -/

/-- Per-node scalar of handleRunRiemannAnalysis: the relative energy
excess over the threshold (with a fallback for near-zero thresholds) is
clamped into [0, 5] after the branch, and the final scalar
0.5 + (excess - noise) * scalingFactor is clamped into [0, 1]. -/
def riemannScalar (currentThreshold currentNoise riemannScalingFactor energie : ℚ) : ℚ :=
  let relativeEnergyExcess :=
    if currentThreshold > 1 / 1000 then
      (max energie currentThreshold - currentThreshold) / currentThreshold
    else if energie > 0 then energie * 2 else 0
  let clampedExcess := max 0 (min relativeEnergyExcess 5)
  let deviationTerm := (clampedExcess - currentNoise) * riemannScalingFactor
  max 0 (min (1 / 2 + deviationTerm) 1)

/-- Per-node scalar exactly as the spec sentence words it: the [0, 5]
clamp belongs to the threshold > 0.001 branch only, and the fallback
value energy * 2 (or 0) is used unclamped.  Written for comparison with
riemannScalar. -/
def riemannScalarSpec (currentThreshold currentNoise riemannScalingFactor energie : ℚ) : ℚ :=
  let relativeExcess :=
    if currentThreshold > 1 / 1000 then
      max 0 (min ((max energie currentThreshold - currentThreshold) / currentThreshold) 5)
    else if energie > 0 then energie * 2 else 0
  max 0 (min (1 / 2 + (relativeExcess - currentNoise) * riemannScalingFactor) 1)

/-- Per-node scalar with the amended reading: the [0, 5] clamp applies
to the fallback branch as well (as the code does, where the clamp sits
after the if/else). -/
def riemannScalarAmended (currentThreshold currentNoise riemannScalingFactor energie : ℚ) : ℚ :=
  let relativeExcess :=
    if currentThreshold > 1 / 1000 then
      max 0 (min ((max energie currentThreshold - currentThreshold) / currentThreshold) 5)
    else max 0 (min (if energie > 0 then energie * 2 else 0) 5)
  max 0 (min (1 / 2 + (relativeExcess - currentNoise) * riemannScalingFactor) 1)

/-- calculateMean: sum of the values (reduce with +, start 0) divided by
the length; 0 for the empty list. -/
def calculateMean (data : List ℚ) : ℚ :=
  if data.length = 0 then 0
  else data.foldl (fun acc val => acc + val) 0 / (data.length : ℚ)

/-- calculateMedian: middle element of the ascending sort for odd
length, average of the two middle elements for even length, 0 for the
empty list. -/
def calculateMedian (data : List ℚ) : ℚ :=
  if data.length = 0 then 0
  else
    let sorted := data.mergeSort (fun a b => a ≤ b)
    let mid := sorted.length / 2
    if sorted.length % 2 ≠ 0 then sorted.getD mid 0
    else (sorted.getD (mid - 1) 0 + sorted.getD mid 0) / 2

/-- calculateStdDev: 0 for lists of at most one element, otherwise the
square root of the sum of squared deviations from the mean divided by
length - 1.  The optional mean argument of the source is the second
parameter: none recomputes the mean, some m uses m. -/
def calculateStdDev (ops : MathOps) (data : List ℚ) (mean : Option ℚ) : ℚ :=
  if data.length ≤ 1 then 0
  else
    let m := match mean with
      | none => calculateMean data
      | some mv => mv
    ops.sqrt (data.foldl (fun sq n => sq + (n - m) ^ 2) 0 / ((data.length : ℚ) - 1))

/-! ## Helper lemmas -/

lemma linspace_length (start stop : ℚ) (num : ℕ) :
    (linspace start stop num).length = num := by
  unfold linspace
  split_ifs with h1 h2
  · simp [h1]
  · simp [h2]
  · rw [List.length_map, List.length_range]

lemma simSteps_ge_ten (d : ℚ) : 10 ≤ simSteps d := by
  unfold simSteps
  have h := le_max_left 10 ⌊d * STEPS_PER_UNIT_DURATION⌋
  omega

lemma calculateSimulationData_length (ops : MathOps) (d n t : ℚ) (rng : ℕ) :
    (calculateSimulationData ops d n t rng).length = simSteps d := by
  have h10 := simSteps_ge_ten d
  have hlen := linspace_length 0 d (simSteps d)
  unfold calculateSimulationData
  rw [if_neg (by omega)]
  simp [hlen]

lemma calculateSimulationData_getElem (ops : MathOps) (d n t : ℚ) (rng : ℕ)
    (i : ℕ) (hi : i < simSteps d) :
    (calculateSimulationData ops d n t rng)[i]? =
      some (mkPoint n t ((linspace 0 d (simSteps d)).getD i 0)
        ((energieArray ops n (linspace 0 d (simSteps d)) rng).1.getD i 0)
        ((phaseArray ops n (linspace 0 d (simSteps d))
          (energieArray ops n (linspace 0 d (simSteps d)) rng).2).1.getD i 0)) := by
  have h10 := simSteps_ge_ten d
  have hlen := linspace_length 0 d (simSteps d)
  unfold calculateSimulationData
  rw [if_neg (by omega)]
  simp [hlen, List.getElem?_map, List.getElem?_range, hi]

lemma drawNonzeroFuel_two (s : ℕ) : drawNonzeroFuel 2 s = some (drawNonzero s) := by
  by_cases h : lcgNext s = 0
  · have h0 : lcgNext 0 = 12345 := by decide
    simp [drawNonzeroFuel, drawNonzero, h, h0]
  · simp [drawNonzeroFuel, drawNonzero, h]

lemma drawNonzero_fst_ne_zero (s : ℕ) : (drawNonzero s).1 ≠ 0 := by
  by_cases h : lcgNext s = 0
  · simp only [drawNonzero, h, if_pos rfl]
    decide
  · simp [drawNonzero, h]

lemma drawNonzero_advances_le_two (s : ℕ) : (drawNonzero s).2.2 ≤ 2 := by
  by_cases h : lcgNext s = 0 <;> simp [drawNonzero, h]

lemma randnFuel_two (ops : MathOps) (s : ℕ) :
    randnFuel ops 2 s = some (randn ops s) := by
  rcases hu : drawNonzero s with ⟨u, s1, k1⟩
  rcases hv : drawNonzero s1 with ⟨v, s2, k2⟩
  have h1 : drawNonzeroFuel 2 s = some (u, s1, k1) := by
    rw [drawNonzeroFuel_two, hu]
  have h2 : drawNonzeroFuel 2 s1 = some (v, s2, k2) := by
    rw [drawNonzeroFuel_two, hv]
  simp [randnFuel, randn, h1, h2, hu, hv]

lemma mkPoint_time (a b t e p : ℚ) : (mkPoint a b t e p).time = roundTo 2 t := rfl

lemma linspace_getElem (start stop : ℚ) (num : ℕ) (h2 : 2 ≤ num) (i : ℕ) (hi : i < num) :
    (linspace start stop num)[i]? =
      some (start + ((stop - start) / ((num : ℚ) - 1)) * (i : ℚ)) := by
  unfold linspace
  rw [if_neg (by omega), if_neg (by omega)]
  simp [List.getElem?_map, List.getElem?_range, hi]

lemma round_mono_rat {x y : ℚ} (h : x ≤ y) : round x ≤ round y := by
  rw [round_eq, round_eq]
  exact Int.floor_le_floor (by linarith)

lemma round_lt_of_add_one_le {x y : ℚ} (h : x + 1 ≤ y) : round x < round y := by
  rw [round_eq, round_eq]
  have h3 := Int.floor_le_floor (show x + 1 / 2 + 1 ≤ y + 1 / 2 by linarith)
  rw [Int.floor_add_one] at h3
  omega

lemma roundTo_lt_of_add_le {k : ℕ} {x y : ℚ} (h : x + 1 / 10 ^ k ≤ y) :
    roundTo k x < roundTo k y := by
  unfold roundTo
  have h10 : (0 : ℚ) < 10 ^ k := by positivity
  have hxy : x * 10 ^ k + 1 ≤ y * 10 ^ k := by
    have hm := mul_le_mul_of_nonneg_right h h10.le
    rw [add_mul, one_div_mul_cancel (ne_of_gt h10)] at hm
    exact hm
  have hr := round_lt_of_add_one_le hxy
  exact (div_lt_div_iff_of_pos_right h10).mpr (by exact_mod_cast hr)

lemma round_mem_of_bounds {x : ℚ} {a b : ℤ} (h1 : (a : ℚ) ≤ x) (h2 : x < (b : ℚ)) :
    a ≤ round x ∧ round x ≤ b := by
  constructor
  · have := round_mono_rat h1
    rwa [round_intCast] at this
  · rw [round_eq]
    have hlt : ⌊x + 1 / 2⌋ < b + 1 := by
      rw [Int.floor_lt]
      push_cast
      linarith
    omega

lemma knotenCount_pos_of_mem {pts : List SimulationDataPoint} {p : SimulationDataPoint}
    (hmem : p ∈ pts) (hk : p.knoten.isSome) : 0 < knotenCount pts := by
  unfold knotenCount
  have hpf : p ∈ pts.filter fun q => q.knoten.isSome := List.mem_filter.mpr ⟨hmem, hk⟩
  exact List.length_pos.mpr (List.ne_nil_of_mem hpf)

/-- Value of the energy wave under the all-zero Math interpretation: with
noiseFactor 0 every raw energy sample is 0. -/
lemma energieArray_zeroOps (ts : List ℚ) (s : ℕ) :
    (energieArray zeroOps 0 ts s).1 = List.replicate ts.length 0 := by
  induction ts generalizing s with
  | nil => simp [energieArray]
  | cons t ts ih =>
    simp only [energieArray, List.replicate_succ, List.length_cons]
    rw [ih]
    simp [zeroOps]

/-- Value of the phase wave under the all-zero Math interpretation. -/
lemma phaseArray_zeroOps (ts : List ℚ) (s : ℕ) :
    (phaseArray zeroOps 0 ts s).1 = List.replicate ts.length 0 := by
  induction ts generalizing s with
  | nil => simp [phaseArray]
  | cons t ts ih =>
    simp only [phaseArray, List.replicate_succ, List.length_cons]
    rw [ih]
    simp [zeroOps]

/-- Interpretation of the Math object with every function constantly 2,
used to exhibit runs that do produce nodes. -/
def twoOps : MathOps :=
  { sin := fun _ => 2, cos := fun _ => 2, sqrt := fun _ => 2
    log := fun _ => 2, pi := 2 }

/-- Under twoOps every randn draw is 4, so every raw energy sample is
2 + noise * 4, independent of time and register state. -/
lemma energieArray_twoOps (noise : ℚ) (ts : List ℚ) (s : ℕ) :
    (energieArray twoOps noise ts s).1 = List.replicate ts.length (2 + noise * 4) := by
  induction ts generalizing s with
  | nil => simp [energieArray]
  | cons t ts ih =>
    simp only [energieArray, List.replicate_succ, List.length_cons]
    rw [ih]
    simp [twoOps, randn]
    norm_num

/-- Under twoOps every raw phase sample is 2 + noise * 4 as well. -/
lemma phaseArray_twoOps (noise : ℚ) (ts : List ℚ) (s : ℕ) :
    (phaseArray twoOps noise ts s).1 = List.replicate ts.length (2 + noise * 4) := by
  induction ts generalizing s with
  | nil => simp [phaseArray]
  | cons t ts ih =>
    simp only [phaseArray, List.replicate_succ, List.length_cons]
    rw [ih]
    simp [twoOps, randn]
    norm_num

lemma getD_replicate_self (n : ℕ) (a : ℚ) (i : ℕ) :
    (List.replicate n a).getD i a = a := by
  rw [List.getD_eq_getElem?_getD]
  rcases lt_or_ge i n with h | h
  · simp [List.getElem?_replicate_of_lt h]
  · rw [List.getElem?_eq_none (by simpa using h)]
    rfl

lemma getD_replicate_of_lt {n i : ℕ} (a d : ℚ) (h : i < n) :
    (List.replicate n a).getD i d = a := by
  rw [List.getD_eq_getElem?_getD, List.getElem?_replicate_of_lt h]
  rfl

lemma sum_set_getD_add_one (l : List ℕ) (i : ℕ) (hi : i < l.length) :
    (l.set i (l.getD i 0 + 1)).sum = l.sum + 1 := by
  induction l generalizing i with
  | nil => simp at hi
  | cons a tl ih =>
    cases i with
    | zero =>
      simp only [List.getD_cons_zero, List.set_cons_zero, List.sum_cons]
      omega
    | succ j =>
      simp only [List.getD_cons_succ, List.set_cons_succ, List.sum_cons]
      have := ih j (by simpa using hi)
      omega

lemma distributionFold_aux (d : ℚ) (ts : List ℚ) (acc : List ℕ)
    (h : ∀ x ∈ ts, 0 ≤ segmentIndex d x ∧ (segmentIndex d x).toNat < acc.length) :
    (ts.foldl (distributionStep d) acc).length = acc.length ∧
    (ts.foldl (distributionStep d) acc).sum = acc.sum + ts.length := by
  induction ts generalizing acc with
  | nil => simp
  | cons a tl ih =>
    have ha := h a (List.mem_cons_self a tl)
    have hstep_len : (distributionStep d acc a).length = acc.length := by
      unfold distributionStep
      rw [if_pos ha]
      exact List.length_set acc _ _
    have hstep_sum : (distributionStep d acc a).sum = acc.sum + 1 := by
      unfold distributionStep
      rw [if_pos ha]
      exact sum_set_getD_add_one acc _ ha.2
    have ihr := ih (distributionStep d acc a) (fun x hx => by
      rw [hstep_len]
      exact h x (List.mem_cons_of_mem a hx))
    rw [List.foldl_cons]
    refine ⟨ihr.1.trans hstep_len, ?_⟩
    rw [ihr.2, hstep_sum, List.length_cons]
    omega

lemma foldl_add_eq_sum (f : ℚ → ℚ) (l : List ℚ) (init : ℚ) :
    l.foldl (fun acc v => acc + f v) init = init + (l.map f).sum := by
  induction l generalizing init with
  | nil => simp
  | cons a tl ih =>
    simp only [List.foldl_cons, List.map_cons, List.sum_cons, ih]
    ring

/-! ## Theorems for the claims -/

/-- C2: Node invariant: for every sample produced by
calculateSimulationData, the knoten field is present if and only if the
raw energy strictly exceeds the threshold, the raw phase strictly
exceeds the threshold, and both raw values rounded to 3 decimals are
equal; when present, knoten equals the 3-decimal-rounded energy, which
also equals the sample's energie and phase fields, and the
characteristic field is present exactly when knoten is present. -/
theorem c2_node_invariant (ops : MathOps) (d n t seedv : ℚ) (i : ℕ)
    (p : SimulationDataPoint) (rawE rawP : ℚ)
    (hp : (calculateSimulationData ops d n t (mkSeed seedv))[i]? = some p)
    (hrE : rawE = (energieArray ops n (linspace 0 d (simSteps d)) (mkSeed seedv)).1.getD i 0)
    (hrP : rawP = (phaseArray ops n (linspace 0 d (simSteps d))
      (energieArray ops n (linspace 0 d (simSteps d)) (mkSeed seedv)).2).1.getD i 0) :
    (p.knoten.isSome ↔ rawE > t ∧ rawP > t ∧ roundTo 3 rawE = roundTo 3 rawP) ∧
    (∀ k, p.knoten = some k →
      k = roundTo 3 rawE ∧ p.energie = roundTo 3 rawE ∧ p.phase = roundTo 3 rawE) ∧
    (p.characteristic.isSome ↔ p.knoten.isSome) := by
  have hlen := calculateSimulationData_length ops d n t (mkSeed seedv)
  have hi : i < simSteps d := by
    by_contra hge
    rw [List.getElem?_eq_none (by omega)] at hp
    exact Option.noConfusion hp
  rw [calculateSimulationData_getElem ops d n t (mkSeed seedv) i hi] at hp
  have hpeq : p = mkPoint n t ((linspace 0 d (simSteps d)).getD i 0) rawE rawP := by
    rw [hrE, hrP]
    exact (Option.some.inj hp).symm
  subst hpeq
  by_cases hcond : rawE > t ∧ rawP > t ∧ roundTo 3 rawE = roundTo 3 rawP
  · constructor
    · simp [mkPoint, hcond]
    constructor
    · intro k hk
      simp only [mkPoint, if_pos hcond] at hk
      have hk2 := Option.some.inj hk
      refine ⟨hk2.symm, rfl, ?_⟩
      simp only [mkPoint]
      exact hcond.2.2.symm
    · simp [mkPoint, hcond]
  · constructor
    · simp [mkPoint, hcond]
    constructor
    · intro k hk
      simp only [mkPoint, if_neg hcond] at hk
      exact Option.noConfusion hk
    · simp [mkPoint, hcond]

/-- C2 witness: at duration 1/10, noise 0, threshold -1, seed 1, under
the all-zero Math interpretation the first sample has raw values 0 on
both channels, both strictly above the threshold -1 and with equal
3-decimal roundings, so its knoten field is set, to 0, the rounded
energy. -/
theorem c2_node_invariant_witness :
    (calculateSimulationData zeroOps (1/10) 0 (-1) (mkSeed 1))[0]? =
      some (mkPoint 0 (-1) ((linspace 0 (1/10) (simSteps (1/10))).getD 0 0) 0 0) ∧
    (mkPoint 0 (-1) ((linspace 0 (1/10) (simSteps (1/10))).getD 0 0) 0 0).knoten =
      some 0 := by
  have hS0 : 0 < simSteps (1/10) := by
    have := simSteps_ge_ten (1/10)
    omega
  have hE : (energieArray zeroOps 0 (linspace 0 (1/10) (simSteps (1/10)))
      (mkSeed 1)).1.getD 0 0 = 0 := by
    rw [energieArray_zeroOps]
    exact getD_replicate_self _ _ _
  have hP : (phaseArray zeroOps 0 (linspace 0 (1/10) (simSteps (1/10)))
      (energieArray zeroOps 0 (linspace 0 (1/10) (simSteps (1/10)))
        (mkSeed 1)).2).1.getD 0 0 = 0 := by
    rw [phaseArray_zeroOps]
    exact getD_replicate_self _ _ _
  have hp := calculateSimulationData_getElem zeroOps (1/10) 0 (-1) (mkSeed 1) 0 hS0
  rw [hE, hP] at hp
  have h := c2_node_invariant zeroOps (1/10) 0 (-1) 1 0
    (mkPoint 0 (-1) ((linspace 0 (1/10) (simSteps (1/10))).getD 0 0) 0 0) 0 0
    hp hE.symm hP.symm
  have hks : (mkPoint 0 (-1) ((linspace 0 (1/10) (simSteps (1/10))).getD 0 0) 0 0).knoten.isSome :=
    h.1.mpr ⟨by norm_num, by norm_num, rfl⟩
  obtain ⟨k, hk⟩ := Option.isSome_iff_exists.mp hks
  have hk0 := (h.2.1 k hk).1
  have hr0 : roundTo 3 0 = 0 := by norm_num [roundTo]
  exact ⟨hp, by rw [hk, hk0, hr0]⟩

/-- C1: Determinism of a run: for every duration, noiseFactor, threshold
and seed, two calls of calculateSimulationData with identical arguments,
each given a fresh SeededRandom constructed from the same seed, return
identical sample sequences: the same length and, at every index, the
same time, energie, phase, knoten and characteristic fields. -/
theorem c1_determinism (ops : MathOps) (duration noiseFactor threshold seed : ℚ) :
    let run1 := calculateSimulationData ops duration noiseFactor threshold (mkSeed seed)
    let run2 := calculateSimulationData ops duration noiseFactor threshold (mkSeed seed)
    run1.length = run2.length ∧
    ∀ i : ℕ,
      (run1[i]?).map SimulationDataPoint.time = (run2[i]?).map SimulationDataPoint.time ∧
      (run1[i]?).map SimulationDataPoint.energie = (run2[i]?).map SimulationDataPoint.energie ∧
      (run1[i]?).map SimulationDataPoint.phase = (run2[i]?).map SimulationDataPoint.phase ∧
      (run1[i]?).map SimulationDataPoint.knoten = (run2[i]?).map SimulationDataPoint.knoten ∧
      (run1[i]?).map SimulationDataPoint.characteristic =
        (run2[i]?).map SimulationDataPoint.characteristic := by
  exact ⟨rfl, fun _ => ⟨rfl, rfl, rfl, rfl, rfl⟩⟩

/-- C3: Sample count and endpoints: for every duration > 0 the run has
exactly max(10, floor(duration * 100)) samples; the underlying times are
the evenly spaced values i * duration / (steps - 1) covering 0 to
duration inclusive, and the first and last sample times are the
2-decimal roundings of 0 and duration. -/
theorem c3_sample_count (ops : MathOps) (n t seedv d : ℚ) (hd : 0 < d) :
    (calculateSimulationData ops d n t (mkSeed seedv)).length = simSteps d ∧
    simSteps d = (max 10 ⌊d * 100⌋).toNat ∧
    (∀ i, i < simSteps d →
      (linspace 0 d (simSteps d))[i]? = some (d / ((simSteps d : ℚ) - 1) * (i : ℚ))) ∧
    (linspace 0 d (simSteps d))[0]? = some 0 ∧
    (linspace 0 d (simSteps d))[simSteps d - 1]? = some d ∧
    ((calculateSimulationData ops d n t (mkSeed seedv))[0]?).map
      SimulationDataPoint.time = some 0 ∧
    ((calculateSimulationData ops d n t (mkSeed seedv))[simSteps d - 1]?).map
      SimulationDataPoint.time = some (roundTo 2 d) := by
  have hS10 := simSteps_ge_ten d
  have hcast : (10 : ℚ) ≤ (simSteps d : ℚ) := by exact_mod_cast hS10
  have hdenom : (simSteps d : ℚ) - 1 ≠ 0 := by linarith
  have helem : ∀ i, i < simSteps d →
      (linspace 0 d (simSteps d))[i]? = some (d / ((simSteps d : ℚ) - 1) * (i : ℚ)) := by
    intro i hi
    rw [linspace_getElem 0 d (simSteps d) (by omega) i hi]
    congr 1
    ring
  have hgetD : ∀ i, i < simSteps d →
      (linspace 0 d (simSteps d)).getD i 0 = d / ((simSteps d : ℚ) - 1) * (i : ℚ) := by
    intro i hi
    rw [List.getD_eq_getElem?_getD, helem i hi]
    rfl
  have hfirst : (linspace 0 d (simSteps d))[0]? = some 0 := by
    rw [helem 0 (by omega)]
    norm_num
  have hlast : (linspace 0 d (simSteps d))[simSteps d - 1]? = some d := by
    rw [helem (simSteps d - 1) (by omega)]
    congr 1
    have hc : ((simSteps d - 1 : ℕ) : ℚ) = (simSteps d : ℚ) - 1 := by
      push_cast [Nat.cast_sub (by omega : 1 ≤ simSteps d)]
      ring
    rw [hc, div_mul_cancel₀ _ hdenom]
  refine ⟨calculateSimulationData_length ops d n t (mkSeed seedv), rfl, helem,
    hfirst, hlast, ?_, ?_⟩
  · rw [calculateSimulationData_getElem ops d n t (mkSeed seedv) 0 (by omega)]
    simp only [Option.map_some', mkPoint_time]
    rw [hgetD 0 (by omega)]
    norm_num [roundTo]
  · rw [calculateSimulationData_getElem ops d n t (mkSeed seedv) (simSteps d - 1) (by omega)]
    simp only [Option.map_some', mkPoint_time]
    congr 1
    rw [hgetD (simSteps d - 1) (by omega)]
    congr 1
    have hc : ((simSteps d - 1 : ℕ) : ℚ) = (simSteps d : ℚ) - 1 := by
      push_cast [Nat.cast_sub (by omega : 1 ≤ simSteps d)]
      ring
    rw [hc, div_mul_cancel₀ _ hdenom]

/-- C3 witness: the call with duration 10, noise 0, threshold 1 and
seed 42 produces exactly 1000 samples whose first sample time is 0 and
whose last (index 999) sample time is 10. -/
theorem c3_sample_count_witness :
    0 < (10 : ℚ) ∧
    (calculateSimulationData zeroOps 10 0 1 (mkSeed 42)).length = 1000 ∧
    ((calculateSimulationData zeroOps 10 0 1 (mkSeed 42))[0]?).map
      SimulationDataPoint.time = some 0 ∧
    ((calculateSimulationData zeroOps 10 0 1 (mkSeed 42))[999]?).map
      SimulationDataPoint.time = some 10 := by
  have h := c3_sample_count zeroOps 0 1 42 10 (by norm_num)
  have hsteps : simSteps 10 = 1000 := by
    have hfl : ⌊(10 : ℚ) * STEPS_PER_UNIT_DURATION⌋ = 1000 := by
      norm_num [STEPS_PER_UNIT_DURATION]
    simp [simSteps, hfl]
  refine ⟨by norm_num, h.1.trans hsteps, h.2.2.2.2.2.1, ?_⟩
  have hlastp := h.2.2.2.2.2.2
  rw [hsteps, show (1000 : ℕ) - 1 = 999 from rfl] at hlastp
  rw [hlastp]
  congr 1
  norm_num [roundTo, round_eq]

/-- C4 counterexample: at duration 1/100 (which is > 0) the run has 10
samples spaced 1/900 apart; the first two sample times both round to 0
at 2 decimals, so the time fields are not strictly increasing. -/
theorem c4_counterexample :
    0 < (1 / 100 : ℚ) ∧
    ((calculateSimulationData zeroOps (1/100) 0 1 (mkSeed 1))[0]?).map
      SimulationDataPoint.time = some 0 ∧
    ((calculateSimulationData zeroOps (1/100) 0 1 (mkSeed 1))[1]?).map
      SimulationDataPoint.time = some 0 := by
  have hfl : ⌊(1/100 : ℚ) * STEPS_PER_UNIT_DURATION⌋ = 1 := by
    norm_num [STEPS_PER_UNIT_DURATION]
  have hS : simSteps (1/100) = 10 := by
    unfold simSteps
    rw [hfl]
    decide
  have hgetD : ∀ i, i < 10 →
      (linspace 0 (1/100) (simSteps (1/100))).getD i 0 = (1/100) / 9 * (i : ℚ) := by
    intro i hi
    rw [hS, List.getD_eq_getElem?_getD,
      linspace_getElem 0 (1/100) 10 (by omega) i hi]
    norm_num
  refine ⟨by norm_num, ?_, ?_⟩
  · rw [calculateSimulationData_getElem zeroOps (1/100) 0 1 (mkSeed 1) 0 (by omega)]
    simp only [Option.map_some', mkPoint_time]
    rw [hgetD 0 (by omega)]
    norm_num [roundTo, round_eq]
  · rw [calculateSimulationData_getElem zeroOps (1/100) 0 1 (mkSeed 1) 1 (by
      rw [hS]; omega)]
    simp only [Option.map_some', mkPoint_time]
    rw [hgetD 1 (by omega)]
    norm_num [roundTo, round_eq]

/-- C4 amended: for every duration of at least 1/10 (in particular for
every duration reachable from the UI, whose minimum is 10) the sample
spacing exceeds 1/100, so the 2-decimal-rounded time fields of the run
are strictly increasing; each time field is the 2-decimal rounding of
the underlying evenly spaced time.  For smaller positive durations the
rounding can collapse adjacent times, as the counterexample shows. -/
theorem c4_amended (ops : MathOps) (n t seedv d : ℚ) (hd : 1 / 10 ≤ d) :
    (∀ i, i < simSteps d →
      ((calculateSimulationData ops d n t (mkSeed seedv))[i]?).map
        SimulationDataPoint.time =
          some (roundTo 2 (d / ((simSteps d : ℚ) - 1) * (i : ℚ)))) ∧
    (∀ (i j : ℕ) (p q : SimulationDataPoint), i < j →
      (calculateSimulationData ops d n t (mkSeed seedv))[i]? = some p →
      (calculateSimulationData ops d n t (mkSeed seedv))[j]? = some q →
      p.time < q.time) := by
  have hS10 := simSteps_ge_ten d
  have hcast : (10 : ℚ) ≤ (simSteps d : ℚ) := by exact_mod_cast hS10
  have htime : ∀ i, i < simSteps d →
      ((calculateSimulationData ops d n t (mkSeed seedv))[i]?).map
        SimulationDataPoint.time =
          some (roundTo 2 (d / ((simSteps d : ℚ) - 1) * (i : ℚ))) := by
    intro i hi
    rw [calculateSimulationData_getElem ops d n t (mkSeed seedv) i hi]
    simp only [Option.map_some', mkPoint_time]
    congr 1
    rw [List.getD_eq_getElem?_getD, linspace_getElem 0 d (simSteps d) (by omega) i hi]
    simp only [Option.getD_some]
    ring
  have hd0 : 0 < d := by linarith
  have hfloor : (10 : ℤ) ≤ ⌊d * STEPS_PER_UNIT_DURATION⌋ := by
    rw [Int.le_floor]
    unfold STEPS_PER_UNIT_DURATION
    push_cast
    linarith
  have hSle : (simSteps d : ℚ) ≤ d * 100 := by
    have h1 : ((simSteps d : ℕ) : ℤ) = ⌊d * STEPS_PER_UNIT_DURATION⌋ := by
      unfold simSteps
      rw [max_eq_right hfloor]
      exact Int.toNat_of_nonneg (by omega)
    have h2 : ((simSteps d : ℕ) : ℚ) = ((⌊d * STEPS_PER_UNIT_DURATION⌋ : ℤ) : ℚ) := by
      exact_mod_cast congrArg (fun z : ℤ => (z : ℚ)) h1
    rw [h2]
    calc ((⌊d * STEPS_PER_UNIT_DURATION⌋ : ℤ) : ℚ) ≤ d * STEPS_PER_UNIT_DURATION :=
          Int.floor_le _
    _ = d * 100 := by norm_num [STEPS_PER_UNIT_DURATION]
  have hstep : 1 / 100 < d / ((simSteps d : ℚ) - 1) := by
    have hpos : (0 : ℚ) < (simSteps d : ℚ) - 1 := by linarith
    rw [div_lt_div_iff₀ (by norm_num) hpos]
    linarith
  have hmono : StrictMono (fun i : ℕ => roundTo 2 (d / ((simSteps d : ℚ) - 1) * (i : ℚ))) := by
    apply strictMono_nat_of_lt_succ
    intro i
    apply roundTo_lt_of_add_le
    push_cast
    have hexp : (10 : ℚ) ^ 2 = 100 := by norm_num
    rw [hexp]
    have : d / ((simSteps d : ℚ) - 1) * ((i : ℚ) + 1) =
        d / ((simSteps d : ℚ) - 1) * (i : ℚ) + d / ((simSteps d : ℚ) - 1) := by ring
    rw [this]
    linarith
  refine ⟨htime, ?_⟩
  intro i j p q hij hpi hqj
  have hlen := calculateSimulationData_length ops d n t (mkSeed seedv)
  have hj : j < simSteps d := by
    by_contra hge
    rw [List.getElem?_eq_none (by omega)] at hqj
    exact Option.noConfusion hqj
  have hi : i < simSteps d := lt_trans hij hj
  have h1 := htime i hi
  have h2 := htime j hj
  rw [hpi] at h1
  rw [hqj] at h2
  simp only [Option.map_some', Option.some.injEq] at h1 h2
  rw [h1, h2]
  exact hmono hij

/-- C4 witness: at duration 1/10 the spacing is 1/90 > 1/100 and the
first two sample times are 0 and 1/100, strictly increasing. -/
theorem c4_amended_witness :
    (1 / 10 : ℚ) ≤ 1 / 10 ∧
    ((calculateSimulationData zeroOps (1/10) 0 1 (mkSeed 1))[0]?).map
      SimulationDataPoint.time = some 0 ∧
    ((calculateSimulationData zeroOps (1/10) 0 1 (mkSeed 1))[1]?).map
      SimulationDataPoint.time = some (1/100) ∧
    (0 : ℚ) < 1 / 100 := by
  have h := c4_amended zeroOps 0 1 1 (1/10) (le_refl _)
  have hfl : ⌊(1/10 : ℚ) * STEPS_PER_UNIT_DURATION⌋ = 10 := by
    norm_num [STEPS_PER_UNIT_DURATION]
  have hS : simSteps (1/10) = 10 := by
    unfold simSteps
    rw [hfl]
    decide
  have h0 := h.1 0 (by rw [hS]; omega)
  have h1 := h.1 1 (by rw [hS]; omega)
  rw [hS] at h0 h1
  refine ⟨le_refl _, ?_, ?_, by norm_num⟩
  · rw [h0]
    congr 1
    norm_num [roundTo, round_eq]
  · rw [h1]
    congr 1
    norm_num [roundTo, round_eq]

/-- C10: randn totality: each of the two re-draw loops of randn()
terminates within two iterations from every register state, because the
LCG update sends register 0 to 12345; the fuelled loop with fuel 2
agrees with the total function drawNonzero used in the embedding, the
drawn value is never 0, and the whole randn() call computes a value from
every state. -/
theorem c10_randn_totality (ops : MathOps) (s : ℕ) :
    lcgNext 0 = LCG_C ∧
    drawNonzeroFuel 2 s = some (drawNonzero s) ∧
    (drawNonzero s).2.2 ≤ 2 ∧
    (drawNonzero s).1 ≠ 0 ∧
    randnFuel ops 2 s = some (randn ops s) :=
  ⟨by decide, drawNonzeroFuel_two s, drawNonzero_advances_le_two s,
    drawNonzero_fst_ne_zero s, randnFuel_two ops s⟩

/-- C5 counterexample: the register state 2088216195 is reachable (the
constructor returns it unchanged) and its LCG successor is exactly 0, so
one randn() call from it advances the register three times, not two. -/
theorem c5_counterexample :
    mkSeed 2088216195 = 2088216195 ∧
    lcgNext 2088216195 = 0 ∧
    randnAdvances (mkSeed 2088216195) = 3 ∧
    randnAdvances (mkSeed 2088216195) ≠ 2 := by
  decide

/-- C5 amended: one randn() call advances the register at least twice
and at most three times; it advances exactly twice if and only if
neither of its two draws lands exactly on 0 (a zero draw is re-drawn
once, and the re-draw is never 0). -/
theorem c5_amended (s : ℕ) :
    2 ≤ randnAdvances s ∧ randnAdvances s ≤ 3 ∧
    (randnAdvances s = 2 ↔ lcgNext s ≠ 0 ∧ lcgNext (lcgNext s) ≠ 0) := by
  simp only [randnAdvances]
  by_cases h1 : lcgNext s = 0
  · have h0 : lcgNext (lcgNext 0) ≠ 0 := by decide
    rw [show drawNonzero s = (lcgNext 0, lcgNext 0, 2) from by simp [drawNonzero, h1]]
    rw [show drawNonzero (lcgNext 0) =
        (lcgNext (lcgNext 0), lcgNext (lcgNext 0), 1) from by simp [drawNonzero, h0]]
    simp [h1]
  · by_cases h2 : lcgNext (lcgNext s) = 0
    · rw [show drawNonzero s = (lcgNext s, lcgNext s, 1) from by simp [drawNonzero, h1]]
      rw [show drawNonzero (lcgNext s) = (lcgNext 0, lcgNext 0, 2) from by
        simp [drawNonzero, h2]]
      simp [h2]
    · rw [show drawNonzero s = (lcgNext s, lcgNext s, 1) from by simp [drawNonzero, h1]]
      rw [show drawNonzero (lcgNext s) =
          (lcgNext (lcgNext s), lcgNext (lcgNext s), 1) from by simp [drawNonzero, h2]]
      simp [h1, h2]

/-- C8 counterexample: at threshold 0 (the fallback branch), energy 3,
noise 0 and scaling factor 1/100 the code clamps the fallback excess 6
into [0,5] and returns 11/20, while the formula of the claim (fallback
used without the [0,5] clamp) gives 14/25. -/
theorem c8_counterexample :
    riemannScalar 0 0 (1 / 100) 3 = 11 / 20 ∧
    riemannScalarSpec 0 0 (1 / 100) 3 = 14 / 25 ∧
    riemannScalar 0 0 (1 / 100) 3 ≠ riemannScalarSpec 0 0 (1 / 100) 3 := by
  refine ⟨by norm_num [riemannScalar], by norm_num [riemannScalarSpec], ?_⟩
  rw [show riemannScalar 0 0 (1 / 100) 3 = 11 / 20 from by norm_num [riemannScalar],
    show riemannScalarSpec 0 0 (1 / 100) 3 = 14 / 25 from by norm_num [riemannScalarSpec]]
  norm_num

/-- C8 amended: for every node energy e, threshold t, noiseFactor n and
scalingFactor C, the per-node scalar equals
clamp(0.5 + (relativeExcess - n) * C, 0, 1) where relativeExcess is
clamped into [0, 5] in both branches: it is
clamp((max(e, t) - t) / t, 0, 5) when t > 0.001 and
clamp(e > 0 ? e * 2 : 0, 0, 5) otherwise. -/
theorem c8_amended (t n C e : ℚ) :
    riemannScalar t n C e = riemannScalarAmended t n C e := by
  simp only [riemannScalar, riemannScalarAmended]
  split_ifs <;> rfl

lemma roundTo_div_bounds {k : ℕ} {x : ℚ} {a b : ℤ}
    (h1 : (a : ℚ) ≤ x * 10 ^ k) (h2 : x * 10 ^ k < (b : ℚ)) :
    (a : ℚ) / 10 ^ k ≤ roundTo k x ∧ roundTo k x ≤ (b : ℚ) / 10 ^ k := by
  have hb := round_mem_of_bounds h1 h2
  have h10 : (0 : ℚ) < 10 ^ k := by positivity
  unfold roundTo
  constructor
  · exact (div_le_div_iff_of_pos_right h10).mpr (by exact_mod_cast hb.1)
  · exact (div_le_div_iff_of_pos_right h10).mpr (by exact_mod_cast hb.2)

lemma searchRun_eq_exhausted (ops : MathOps) (duration : ℚ) (draws : ℕ → ℚ × ℚ × ℚ) :
    ∀ (budget k : ℕ),
      (∀ j, k ≤ j → j < k + budget → ¬ attemptSuccessful ops duration draws j) →
      searchRun ops duration draws k budget = SearchOutcome.exhausted := by
  intro budget
  induction budget with
  | zero => intro k _; rfl
  | succ b ih =>
    intro k h
    simp only [searchRun]
    rw [if_neg (h k (le_refl k) (by omega))]
    exact ih (k + 1) (fun j h1 h2 => h j (by omega) (by omega))

lemma searchRun_eq_success (ops : MathOps) (duration : ℚ) (draws : ℕ → ℚ × ℚ × ℚ) :
    ∀ (budget k i : ℕ), k ≤ i → i < k + budget →
      attemptSuccessful ops duration draws i →
      (∀ j, k ≤ j → j < i → ¬ attemptSuccessful ops duration draws j) →
      searchRun ops duration draws k budget =
        SearchOutcome.success (attemptNoise (draws i).1) (attemptThreshold (draws i).2.1)
          (attemptSeed (draws i).2.2) (i + 1) := by
  intro budget
  induction budget with
  | zero => intro k i h1 h2 _ _; exact absurd h2 (by omega)
  | succ b ih =>
    intro k i h1 h2 hsucc hmin
    by_cases hk : i = k
    · subst hk
      simp only [searchRun]
      rw [if_pos hsucc]
    · simp only [searchRun]
      rw [if_neg (hmin k (le_refl k) (by omega))]
      exact ih (k + 1) i (by omega) (by omega) hsucc (fun j ha hb => hmin j (by omega) hb)

lemma searchRun_success_attempt_le (ops : MathOps) (duration : ℚ) (draws : ℕ → ℚ × ℚ × ℚ) :
    ∀ (budget k : ℕ) (nv tv sv : ℚ) (a : ℕ),
      searchRun ops duration draws k budget = SearchOutcome.success nv tv sv a →
      k + 1 ≤ a ∧ a ≤ k + budget := by
  intro budget
  induction budget with
  | zero =>
    intro k nv tv sv a h
    exact absurd h (by simp [searchRun])
  | succ b ih =>
    intro k nv tv sv a h
    simp only [searchRun] at h
    by_cases hs : attemptSuccessful ops duration draws k
    · rw [if_pos hs] at h
      cases h
      omega
    · rw [if_neg hs] at h
      have := ih (k + 1) nv tv sv a h
      omega

/-- C6: Search state machine: for every attempt budget of at least 1
(the source constant is 50), each attempt draws noise in [0.05, 0.75]
(2-decimal rounding), threshold in [0.7, 1.8] (1-decimal rounding) and
an integer seed in [0, 1000000); the search runs every attempt at the
same fixed duration, ends Exhausted after exactly maxAttempts attempts
when none of them yields a node, ends in Success on the first attempt
whose run contains at least one node, carrying exactly that attempt's
noise, threshold and seed, and every Success attempt number lies within
the budget. -/
theorem c6_search_state_machine (ops : MathOps) (duration : ℚ)
    (draws : ℕ → ℚ × ℚ × ℚ) (maxAttempts : ℕ) (hmax : 1 ≤ maxAttempts)
    (hdraws : ∀ k, 0 ≤ (draws k).1 ∧ (draws k).1 < 1 ∧
      0 ≤ (draws k).2.1 ∧ (draws k).2.1 < 1 ∧
      0 ≤ (draws k).2.2 ∧ (draws k).2.2 < 1) :
    MAX_SEARCH_ATTEMPTS = 50 ∧
    (∀ k, 5/100 ≤ attemptNoise (draws k).1 ∧ attemptNoise (draws k).1 ≤ 75/100 ∧
      7/10 ≤ attemptThreshold (draws k).2.1 ∧ attemptThreshold (draws k).2.1 ≤ 18/10 ∧
      0 ≤ attemptSeed (draws k).2.2 ∧ attemptSeed (draws k).2.2 < 1000000) ∧
    ((∀ k, k < maxAttempts → ¬ attemptSuccessful ops duration draws k) →
      handleStartSearch ops duration draws maxAttempts = SearchOutcome.exhausted) ∧
    (∀ k, k < maxAttempts → attemptSuccessful ops duration draws k →
      (∀ j, j < k → ¬ attemptSuccessful ops duration draws j) →
      handleStartSearch ops duration draws maxAttempts =
        SearchOutcome.success (attemptNoise (draws k).1) (attemptThreshold (draws k).2.1)
          (attemptSeed (draws k).2.2) (k + 1)) ∧
    (∀ nv tv sv a, handleStartSearch ops duration draws maxAttempts =
      SearchOutcome.success nv tv sv a → 1 ≤ a ∧ a ≤ maxAttempts) := by
  refine ⟨rfl, ?_, ?_, ?_, ?_⟩
  · intro k
    obtain ⟨h1, h2, h3, h4, h5, h6⟩ := hdraws k
    have hn := roundTo_div_bounds (k := 2) (x := (draws k).1 * (75/100 - 5/100) + 5/100)
      (a := 5) (b := 75) (by push_cast; nlinarith) (by push_cast; nlinarith)
    have htb := roundTo_div_bounds (k := 1) (x := (draws k).2.1 * (18/10 - 7/10) + 7/10)
      (a := 7) (b := 18) (by push_cast; nlinarith) (by push_cast; nlinarith)
    have hs1 : (0 : ℚ) ≤ attemptSeed (draws k).2.2 := by
      unfold attemptSeed
      have : (0 : ℤ) ≤ ⌊(draws k).2.2 * 1000000⌋ :=
        Int.floor_nonneg.mpr (by nlinarith)
      exact_mod_cast this
    have hs2 : attemptSeed (draws k).2.2 < 1000000 := by
      unfold attemptSeed
      have : ⌊(draws k).2.2 * 1000000⌋ < (1000000 : ℤ) := by
        rw [Int.floor_lt]
        push_cast
        nlinarith
      exact_mod_cast this
    refine ⟨?_, ?_, ?_, ?_, hs1, hs2⟩
    · have := hn.1
      unfold attemptNoise
      convert this using 2
    · have := hn.2
      unfold attemptNoise
      convert this using 2
    · have := htb.1
      unfold attemptThreshold
      convert this using 2
    · have := htb.2
      unfold attemptThreshold
      convert this using 2
  · intro hall
    exact searchRun_eq_exhausted ops duration draws maxAttempts 0
      (fun j _ hj => hall j (by omega))
  · intro k hk hsucc hmin
    exact searchRun_eq_success ops duration draws maxAttempts 0 k (by omega) (by omega)
      hsucc (fun j _ hj => hmin j hj)
  · intro nv tv sv a h
    have := searchRun_success_attempt_le ops duration draws maxAttempts 0 nv tv sv a h
    omega

/-- C6 witness: with the constant-2 Math interpretation every sample of
every run is a node, so with budget 1 the search succeeds on attempt 1
carrying the drawn parameters. -/
theorem c6_search_state_machine_witness :
    handleStartSearch twoOps (1/10) (fun _ => (0, 0, 0)) 1 =
      SearchOutcome.success (attemptNoise 0) (attemptThreshold 0) (attemptSeed 0) 1 := by
  have hS0 : 0 < simSteps (1/10) := by
    have := simSteps_ge_ten (1/10)
    omega
  have hlin0 : 0 < (linspace 0 (1/10) (simSteps (1/10))).length := by
    rw [linspace_length]
    exact hS0
  have hnv : attemptNoise 0 = 1/20 := by
    unfold attemptNoise roundTo
    norm_num [round_eq]
  have htv : attemptThreshold 0 = 7/10 := by
    unfold attemptThreshold roundTo
    norm_num [round_eq]
  have hsucc : attemptSuccessful twoOps (1/10) (fun _ => (0, 0, 0)) 0 := by
    show 0 < knotenCount (calculateSimulationData twoOps (1/10) (attemptNoise 0)
      (attemptThreshold 0) (mkSeed (attemptSeed 0)))
    have hp := calculateSimulationData_getElem twoOps (1/10) (attemptNoise 0)
      (attemptThreshold 0) (mkSeed (attemptSeed 0)) 0 hS0
    apply knotenCount_pos_of_mem (List.getElem?_mem hp)
    have hE : (energieArray twoOps (attemptNoise 0) (linspace 0 (1/10) (simSteps (1/10)))
        (mkSeed (attemptSeed 0))).1.getD 0 0 = 2 + attemptNoise 0 * 4 := by
      rw [energieArray_twoOps]
      exact getD_replicate_of_lt _ _ hlin0
    have hP : (phaseArray twoOps (attemptNoise 0) (linspace 0 (1/10) (simSteps (1/10)))
        (energieArray twoOps (attemptNoise 0) (linspace 0 (1/10) (simSteps (1/10)))
          (mkSeed (attemptSeed 0))).2).1.getD 0 0 = 2 + attemptNoise 0 * 4 := by
      rw [phaseArray_twoOps]
      exact getD_replicate_of_lt _ _ hlin0
    have hcond : (energieArray twoOps (attemptNoise 0) (linspace 0 (1/10) (simSteps (1/10)))
        (mkSeed (attemptSeed 0))).1.getD 0 0 > attemptThreshold 0 ∧
        (phaseArray twoOps (attemptNoise 0) (linspace 0 (1/10) (simSteps (1/10)))
          (energieArray twoOps (attemptNoise 0) (linspace 0 (1/10) (simSteps (1/10)))
            (mkSeed (attemptSeed 0))).2).1.getD 0 0 > attemptThreshold 0 ∧
        roundTo 3 ((energieArray twoOps (attemptNoise 0) (linspace 0 (1/10) (simSteps (1/10)))
          (mkSeed (attemptSeed 0))).1.getD 0 0) =
        roundTo 3 ((phaseArray twoOps (attemptNoise 0) (linspace 0 (1/10) (simSteps (1/10)))
          (energieArray twoOps (attemptNoise 0) (linspace 0 (1/10) (simSteps (1/10)))
            (mkSeed (attemptSeed 0))).2).1.getD 0 0) := by
      rw [hE, hP, hnv, htv]
      norm_num
    simp only [mkPoint]
    rw [if_pos hcond]
    rfl
  have h := c6_search_state_machine twoOps (1/10) (fun _ => (0, 0, 0)) 1 (le_refl 1)
    (fun k => by norm_num)
  exact h.2.2.2.1 0 (by omega) hsucc (fun j hj => absurd hj (Nat.not_lt_zero j))

/-- C7: Histogram conservation and clamping: for every positive duration
and every finite collection of node times (all nonnegative), each node
is assigned bucket index min(floor(time / (duration/10)), 9), which lies
in 0..9 (boundary samples are clamped into the last bucket, never
dropped), and the ten bucket counts sum to the total node count. -/
theorem c7_histogram (d : ℚ) (hd : 0 < d) (knotenTimes : List ℚ)
    (ht : ∀ x ∈ knotenTimes, 0 ≤ x) :
    (∀ x ∈ knotenTimes, 0 ≤ segmentIndex d x ∧ segmentIndex d x ≤ 9) ∧
    (knotenDistribution d knotenTimes).length = TIME_SEGMENTS ∧
    (knotenDistribution d knotenTimes).sum = knotenTimes.length := by
  have hbound : ∀ x : ℚ, 0 ≤ x → 0 ≤ segmentIndex d x ∧ segmentIndex d x ≤ 9 := by
    intro x hx
    unfold segmentIndex
    constructor
    · apply le_min
      · apply Int.floor_nonneg.mpr
        apply div_nonneg hx
        have h10 : (0 : ℚ) < (TIME_SEGMENTS : ℚ) := by norm_num [TIME_SEGMENTS]
        positivity
      · norm_num [TIME_SEGMENTS]
    · calc min ⌊x / (d / (TIME_SEGMENTS : ℚ))⌋ ((TIME_SEGMENTS : ℤ) - 1) ≤
          (TIME_SEGMENTS : ℤ) - 1 := min_le_right _ _
      _ = 9 := by norm_num [TIME_SEGMENTS]
  have haux := distributionFold_aux d knotenTimes (List.replicate TIME_SEGMENTS 0)
    (fun x hx => by
      have hb := hbound x (ht x hx)
      refine ⟨hb.1, ?_⟩
      rw [List.length_replicate]
      have h9 := hb.2
      have hT : TIME_SEGMENTS = 10 := rfl
      omega)
  refine ⟨fun x hx => hbound x (ht x hx), ?_, ?_⟩
  · unfold knotenDistribution
    rw [haux.1, List.length_replicate]
  · unfold knotenDistribution
    rw [haux.2]
    simp

/-- C7 witness: with duration 10 and node times 0, 3.7 and 10, the
boundary node at time 10 is clamped into bucket 9 and the three bucket
counts sum to 3. -/
theorem c7_histogram_witness :
    0 < (10 : ℚ) ∧
    (knotenDistribution 10 [0, 37/10, 10]).sum = 3 ∧
    segmentIndex 10 10 = 9 ∧
    segmentIndex 10 0 = 0 := by
  have h := c7_histogram 10 (by norm_num) [0, 37/10, 10] (by norm_num)
  refine ⟨by norm_num, h.2.2.trans rfl, ?_, ?_⟩
  · unfold segmentIndex
    rw [show (10 : ℚ) / ((TIME_SEGMENTS : ℕ) : ℚ) = 1 from by norm_num [TIME_SEGMENTS]]
    norm_num [TIME_SEGMENTS]
  · unfold segmentIndex
    rw [show (10 : ℚ) / ((TIME_SEGMENTS : ℕ) : ℚ) = 1 from by norm_num [TIME_SEGMENTS]]
    norm_num [TIME_SEGMENTS]

/-- C9: Descriptive statistics: calculateStdDev returns 0 for lists of
length at most 1 (in particular for every singleton); for length at
least 2 it returns the square root of the sum of squared deviations from
the mean divided by n - 1 (the sample standard deviation); and
calculateMedian returns 0 on the empty list, the middle element of the
ascending sort for odd length, and the average of the two middle
elements of the ascending sort for even length. -/
theorem c9_descriptive_stats (ops : MathOps) (data : List ℚ) (x : ℚ) :
    calculateStdDev ops [x] none = 0 ∧
    (data.length ≤ 1 → calculateStdDev ops data none = 0) ∧
    (2 ≤ data.length →
      calculateStdDev ops data none =
        ops.sqrt ((data.map fun v => (v - calculateMean data) ^ 2).sum /
          ((data.length : ℚ) - 1))) ∧
    calculateMedian [] = 0 ∧
    (data ≠ [] → data.length % 2 = 1 →
      calculateMedian data = (data.mergeSort fun a b => a ≤ b).getD (data.length / 2) 0) ∧
    (data ≠ [] → data.length % 2 = 0 →
      calculateMedian data =
        ((data.mergeSort fun a b => a ≤ b).getD (data.length / 2 - 1) 0 +
          (data.mergeSort fun a b => a ≤ b).getD (data.length / 2) 0) / 2) := by
  refine ⟨?_, ?_, ?_, ?_, ?_, ?_⟩
  · simp [calculateStdDev]
  · intro h
    unfold calculateStdDev
    rw [if_pos h]
  · intro h
    unfold calculateStdDev
    rw [if_neg (by omega)]
    show ops.sqrt (List.foldl (fun sq n => sq + (n - calculateMean data) ^ 2) 0 data /
      ((data.length : ℚ) - 1)) =
        ops.sqrt ((List.map (fun v => (v - calculateMean data) ^ 2) data).sum /
          ((data.length : ℚ) - 1))
    rw [show List.foldl (fun sq n => sq + (n - calculateMean data) ^ 2) 0 data =
        (List.map (fun v => (v - calculateMean data) ^ 2) data).sum from by
      simpa using foldl_add_eq_sum (fun v => (v - calculateMean data) ^ 2) data 0]
  · simp [calculateMedian]
  · intro hne hodd
    simp only [calculateMedian, List.length_mergeSort]
    rw [if_neg (by simpa using hne), if_pos (by omega)]
  · intro hne heven
    simp only [calculateMedian, List.length_mergeSort]
    rw [if_neg (by simpa using hne), if_neg (by omega)]

/-- C9 witness: the standard deviation of the singleton list [5] is 0,
and the median of [1, 2, 3, 4] is the average 5/2 of the two middle
elements of the sorted list. -/
theorem c9_descriptive_stats_witness :
    calculateStdDev zeroOps [(5 : ℚ)] none = 0 ∧
    calculateMedian [(1 : ℚ), 2, 3, 4] = 5/2 := by
  have h := c9_descriptive_stats zeroOps [(1 : ℚ), 2, 3, 4] 5
  refine ⟨h.1, ?_⟩
  have heven := h.2.2.2.2.2 (by simp) rfl
  rw [heven]
  have hsort : ([(1 : ℚ), 2, 3, 4].mergeSort fun a b => a ≤ b) = [1, 2, 3, 4] := by
    apply List.mergeSort_of_sorted
    norm_num [List.pairwise_cons]
  rw [hsort]
  norm_num [List.getD]

end SubQG
